import Mathlib

/-!
Shallow embedding of the music sentiment/genre analyzer front-end
(AsafMeizner/final-project-website-music) and proofs about its behaviour.

The page component (src/src/app/page.tsx) holds a four-value UI stage,
audio URLs, segment lists, a predicted genre and an error message; its
handlers (handleFileUpload, processAudio, animateSegments, the recorder
onstop handlers and resetApp) are embedded as explicit state transformers.
The server action analyzeAudio (appended to src/unnamed/part_004), the
client-side sentiment animation engine (src/unnamed/part_004 and
src/unnamed/part_002: updateSentiment, the animate loop, startProcessing)
and the SVG helper generateSmoothPath
(src/src/app/utils/sentimentHelpers.ts) are embedded as pure functions.
JavaScript numbers are modelled as rationals; Math.random() draws are
modelled as oracle inputs constrained to the ranges the code draws from;
a possibly-undefined value is modelled as an Option.
-/

/-- The UI stage enum from page.tsx:
`useState<"idle" | "uploading" | "processing" | "finished">("idle")`. -/
inductive Stage where
  | idle
  | uploading
  | processing
  | finished
deriving DecidableEq, Repr

/-- Position of a stage in the fixed order idle, uploading, processing,
finished. -/
def stageRank : Stage → Nat
  | Stage.idle => 0
  | Stage.uploading => 1
  | Stage.processing => 2
  | Stage.finished => 3

/-- A sentiment segment as returned by the server (interface ServerSegment
in page.tsx). -/
structure ServerSegment where
  timeSec : ℚ
  valence : ℚ
  arousal : ℚ
  dominance : ℚ
deriving DecidableEq, Repr

/-- The state held by the Home component of page.tsx that the embedded
handlers read and write.  `animatedSegments` entries are Options because
the animation interval can append `segments[currentIdx]` with
`currentIdx` out of bounds, i.e. the JavaScript value `undefined`. -/
structure AppState where
  stage : Stage
  recording : Bool
  recordedAudioUrl : Option String
  uploadedAudioUrl : Option String
  songName : String
  artistName : String
  serverSegments : List ServerSegment
  animatedSegments : List (Option ServerSegment)
  predictedGenre : Option String
  error : Option String
deriving DecidableEq, Repr

/-- The initial values of the useState hooks of page.tsx. -/
def initialAppState : AppState where
  stage := Stage.idle
  recording := false
  recordedAudioUrl := none
  uploadedAudioUrl := none
  songName := "Unknown"
  artistName := "Unknown"
  serverSegments := []
  animatedSegments := []
  predictedGenre := none
  error := none

/-- resetApp from page.tsx lines 204-211: sets the stage to idle, both
audio URLs to null, the predicted genre to null and both segment lists to
empty.  The source performs no setError call here. -/
def resetApp (s : AppState) : AppState :=
  { s with
    stage := Stage.idle
    recordedAudioUrl := none
    uploadedAudioUrl := none
    predictedGenre := none
    serverSegments := []
    animatedSegments := [] }

/-- The result type of the analysis endpoint: `{ segments, genre }`. -/
structure AnalysisResult where
  segments : List ServerSegment
  genre : String
deriving DecidableEq, Repr

/-- An HTTP response of the analysis endpoint: a status code and the
parsed JSON body. -/
structure HttpResponse where
  status : Nat
  data : AnalysisResult
deriving DecidableEq, Repr

/-- analyzeAudio from the server action (src/unnamed/part_004 lines
1085-1101): posts the form data and, on a response whose status is not
200, throws `API request failed with status code N`; otherwise returns
response.data.  (axios itself also rejects non-2xx responses; either way
the non-200 case propagates as a failure.) -/
def analyzeAudio (resp : HttpResponse) : Except String AnalysisResult :=
  if resp.status ≠ 200 then
    Except.error ("API request failed with status code " ++ toString resp.status)
  else
    Except.ok resp.data

/-- The synchronous writes processAudio performs once `await analyzeAudio`
resolves successfully (page.tsx lines 117-120): setServerSegments,
setPredictedGenre, setStage("uploading"). -/
def processAudioReceive (r : AnalysisResult) (s : AppState) : AppState :=
  { s with
    serverSegments := r.segments
    predictedGenre := some r.genre
    stage := Stage.uploading }

/-- The body of the 2000 ms setTimeout inside processAudio (page.tsx
lines 121-124): setStage("processing") and then animateSegments runs. -/
def processAudioTimeout (s : AppState) : AppState :=
  { s with stage := Stage.processing }

/-- The catch branch of processAudio (page.tsx lines 125-128): only
setError is called. -/
def processAudioCatch (s : AppState) : AppState :=
  { s with error := some "There was an error processing your audio. Please try again." }

/-- processAudio (page.tsx lines 113-129) up to its first stage write: on
a successful analyzeAudio result it stores the segments and genre and
moves the stage to uploading; on a failure it only sets the generic error
message. -/
def processAudio (resp : HttpResponse) (s : AppState) : AppState :=
  match analyzeAudio resp with
  | Except.ok r => processAudioReceive r s
  | Except.error _ => processAudioCatch s

/-- JavaScript String.prototype.startsWith, modelled on the character
lists of the two strings. -/
def charsStartsWith : List Char → List Char → Bool
  | _, [] => true
  | [], _ :: _ => false
  | c :: cs, p :: ps => c = p && charsStartsWith cs ps

/-- The `file.type.startsWith("audio/")` test of handleFileUpload. -/
def typeStartsWith (s pre : String) : Bool := charsStartsWith s.data pre.data

/-- A file carried by a change event on the upload input. -/
structure UploadFile where
  name : String
  type : String
deriving DecidableEq, Repr

/-- handleFileUpload (page.tsx lines 132-143).  The Bool is true exactly
when the handler reaches the processAudio(file) call.  With no file it
returns early; with a file whose MIME type does not start with `audio/`
it sets the error message and returns; otherwise it clears the error,
records the song name and starts processing. -/
def handleFileUpload (files : List UploadFile) (s : AppState) : AppState × Bool :=
  match files with
  | [] => (s, false)
  | file :: _ =>
    if ¬ typeStartsWith file.type "audio/" then
      ({ s with error := some "Please upload a valid audio file." }, false)
    else
      ({ s with error := none, songName := file.name, artistName := "Unknown" }, true)

/-- The onstop handler of the inline recorder (page.tsx lines 165-171)
up to its call of processAudio: stores the object URL of the recorded
blob and moves the stage to uploading.  The onRecordingComplete callback
passed to RecordModal (page.tsx lines 302-309) performs the same stage
write. -/
def recorderOnStop (url : String) (s : AppState) : AppState :=
  { s with recordedAudioUrl := some url, stage := Stage.uploading }

/-- One pass of the interval body of animateSegments (page.tsx lines
100-110), starting at index `currentIdx`: append `segments[currentIdx]`
(undefined, i.e. none, when out of bounds) to animatedSegments, increment
the index, and when the incremented index reaches segments.length clear
the interval and set the stage to finished, otherwise continue with the
next tick. -/
def animateFrom (segments : List ServerSegment) (currentIdx : Nat) (s : AppState) : AppState :=
  if segments.length ≤ currentIdx + 1 then
    { s with
      animatedSegments := s.animatedSegments ++ [segments.get? currentIdx]
      stage := Stage.finished }
  else
    animateFrom segments (currentIdx + 1)
      { s with animatedSegments := s.animatedSegments ++ [segments.get? currentIdx] }
termination_by segments.length - currentIdx
decreasing_by
  simp only [not_le] at *
  omega

/-- animateSegments (page.tsx lines 100-110): the interval starts at
index 0; its first tick always runs. -/
def animateSegments (segments : List ServerSegment) (s : AppState) : AppState :=
  animateFrom segments 0 s

/-- One animated sentiment dimension of the demo pages (src/unnamed/part_002
and part_004): a current value, a target and a speed. -/
structure SentimentState where
  value : ℚ
  target : ℚ
  speed : ℚ
deriving DecidableEq, Repr

/-- updateSentiment (src/unnamed/part_004 lines 513-533, identically
src/unnamed/part_002 lines 87-119).  `rt` and `rs` are the two
Math.random() draws consumed when the target is reached: the fresh target
is `rt` and the fresh speed is `rs * 0.005 + 0.002`. -/
def updateSentiment (rt rs : ℚ) (st : SentimentState) : SentimentState :=
  let newValue :=
    if st.value < st.target then
      let nv := st.value + st.speed
      if st.target ≤ nv then st.target else nv
    else if st.target < st.value then
      let nv := st.value - st.speed
      if nv ≤ st.target then st.target else nv
    else st.value
  if newValue = st.target then
    { value := newValue, target := rt, speed := rs * (5 / 1000) + 2 / 1000 }
  else
    { st with value := newValue }

/-- A segment of the client-side simulation (interface SegmentSentiment). -/
structure SegmentSentiment where
  timeSec : ℚ
  valence : SentimentState
  arousal : SentimentState
  dominance : SentimentState
  locked : Bool
deriving DecidableEq, Repr

/-- The six Math.random() draws one animation frame may consume for one
segment: a (target, speed) pair of draws per dimension. -/
structure FrameDraws where
  valence : ℚ × ℚ
  arousal : ℚ × ℚ
  dominance : ℚ × ℚ

/-- The per-segment body of the animate loop (src/unnamed/part_004 lines
510-540): a locked segment is returned unchanged, otherwise all three
dimensions are updated. -/
def animateSeg (dr : FrameDraws) (seg : SegmentSentiment) : SegmentSentiment :=
  if seg.locked then seg
  else
    { seg with
      valence := updateSentiment dr.valence.1 dr.valence.2 seg.valence
      arousal := updateSentiment dr.arousal.1 dr.arousal.2 seg.arousal
      dominance := updateSentiment dr.dominance.1 dr.dominance.2 seg.dominance }

/-- Helper for animateStep: map animateSeg over the list, feeding segment
`i` the draws `dr i`. -/
def animateStepAux (dr : Nat → FrameDraws) (i : Nat) :
    List SegmentSentiment → List SegmentSentiment
  | [] => []
  | seg :: rest => animateSeg (dr i) seg :: animateStepAux dr (i + 1) rest

/-- One frame of the animate loop (src/unnamed/part_004 lines 509-541):
`prevSegments.map` of the per-segment update, each segment consuming its
own random draws. -/
def animateStep (dr : Nat → FrameDraws) (segs : List SegmentSentiment) :
    List SegmentSentiment :=
  animateStepAux dr 0 segs

/-- `n` frames of the animate loop; `oracle k i` supplies the draws frame
`k` may consume for segment `i`. -/
def animateRun (oracle : Nat → Nat → FrameDraws) :
    Nat → List SegmentSentiment → List SegmentSentiment
  | 0, segs => segs
  | n + 1, segs => animateRun (fun k => oracle (k + 1)) n (animateStep (oracle 0) segs)

/-- The initial segment state (src/unnamed/part_004 lines 460-468):
`timeSec: i * 5`, each dimension `{ value: Math.random(), target:
Math.random(), speed: Math.random() * 0.005 + 0.002 }`, not locked.  The
nine Math.random() draws are the `r` arguments. -/
def initSegment (i : Nat) (rv1 rv2 rv3 ra1 ra2 ra3 rd1 rd2 rd3 : ℚ) : SegmentSentiment where
  timeSec := (i : ℚ) * 5
  valence := { value := rv1, target := rv2, speed := rv3 * (5 / 1000) + 2 / 1000 }
  arousal := { value := ra1, target := ra2, speed := ra3 * (5 / 1000) + 2 / 1000 }
  dominance := { value := rd1, target := rd2, speed := rd3 * (5 / 1000) + 2 / 1000 }
  locked := false

/-- The per-segment update of one startProcessing tick (src/unnamed/part_004
lines 655-661): mark the segment locked and pin each dimension by setting
its target to its current value and its speed to 0. -/
def lockSegment (seg : SegmentSentiment) : SegmentSentiment :=
  { seg with
    locked := true
    valence := { seg.valence with target := seg.valence.value, speed := 0 }
    arousal := { seg.arousal with target := seg.arousal.value, speed := 0 }
    dominance := { seg.dominance with target := seg.dominance.value, speed := 0 } }

/-- Helper for startProcessingTick: map with the running index `i`. -/
def startProcessingTickAux (currentIdx i : Nat) :
    List SegmentSentiment → List SegmentSentiment
  | [] => []
  | seg :: rest =>
    (if i = currentIdx then lockSegment seg else seg) ::
      startProcessingTickAux currentIdx (i + 1) rest

/-- One tick of the startProcessing interval (src/unnamed/part_004 lines
651-664): `prev.map((seg, i) => i === currentIdx ? lock : seg)`; the
interval locks index 0, then 1, and so on. -/
def startProcessingTick (currentIdx : Nat) (segs : List SegmentSentiment) :
    List SegmentSentiment :=
  startProcessingTickAux currentIdx 0 segs

/-- Range of a Math.random() draw: the half-open interval from 0 to 1. -/
def randOk (r : ℚ) : Prop := 0 ≤ r ∧ r < 1

/-- Both draws of a (target, speed) pair come from Math.random(). -/
def pairOk (p : ℚ × ℚ) : Prop := randOk p.1 ∧ randOk p.2

/-- All six draws of a frame come from Math.random(). -/
def frameDrawsOk (d : FrameDraws) : Prop :=
  pairOk d.valence ∧ pairOk d.arousal ∧ pairOk d.dominance

/-- The invariant of one sentiment dimension: value and target lie in
the unit interval and the speed is nonnegative. -/
def dimInRange (st : SentimentState) : Prop :=
  0 ≤ st.value ∧ st.value ≤ 1 ∧ 0 ≤ st.target ∧ st.target ≤ 1 ∧ 0 ≤ st.speed

/-- The invariant of a whole segment: all three dimensions in range. -/
def segInRange (seg : SegmentSentiment) : Prop :=
  dimInRange seg.valence ∧ dimInRange seg.arousal ∧ dimInRange seg.dominance

/-- A media track of a capture stream; stop() sets `stopped`. -/
structure Track where
  id : Nat
  stopped : Bool
  enabled : Bool
deriving DecidableEq, Repr

/-- track.stop(). -/
def stopTrack (t : Track) : Track :=
  { t with stopped := true }

/-- The refs of RecordModal (src/unnamed/part_000) that its exit paths
touch: `mediaStreamRef.current` (none when no stream was acquired) with
its track list, the isRecording flag, and whether a recorder is attached. -/
structure ModalState where
  mediaStream : Option (List Track)
  isRecording : Bool
  hasRecorder : Bool
deriving DecidableEq, Repr

/-- stopRecording of RecordModal (src/unnamed/part_000 lines 67-75): the
recorder is stopped when present and recording, then, whenever a stream
is held, every track of the stream is stopped, and isRecording is set to
false. -/
def modalStopRecording (s : ModalState) : ModalState :=
  { s with
    mediaStream := s.mediaStream.map (List.map stopTrack)
    isRecording := false }

/-- The unmount cleanup of RecordModal (src/unnamed/part_000 lines
124-131): stop the audio-level monitor and, whenever a stream is held,
stop every track of the stream. -/
def modalUnmountCleanup (s : ModalState) : ModalState :=
  { s with mediaStream := s.mediaStream.map (List.map stopTrack) }

/-- The refs of the inline recorder of page.tsx:
`inlineMediaStreamRef.current`, the recording flag and
`mediaRecorderRefInline.current`. -/
structure InlineState where
  mediaStream : Option (List Track)
  recording : Bool
  hasRecorder : Bool
deriving DecidableEq, Repr

/-- stopRecordingInline (page.tsx lines 181-187): only when a recorder is
attached and recording is true does it stop the recorder, stop every
track of the inline stream, and clear the recording flag. -/
def stopRecordingInline (s : InlineState) : InlineState :=
  if s.hasRecorder ∧ s.recording then
    { s with
      mediaStream := s.mediaStream.map (List.map stopTrack)
      recording := false }
  else s

/-- The composition of every effect cleanup the page component installs
(page.tsx lines 63-97: removing the scroll listener; the device
enumeration and the scroll-to-bottom effects install no cleanup).  None
of them reads or writes the inline media stream, so on page teardown the
inline recorder state is untouched. -/
def pageUnmountCleanup (s : InlineState) : InlineState := s

/-- A point of the circular area chart. -/
structure Point where
  x : ℚ
  y : ℚ
deriving DecidableEq, Repr

/-- Rendering of a JavaScript number interpolated into the path string. -/
def numStr (q : ℚ) : String := toString q

/-- The i-th loop iteration of generateSmoothPath
(src/src/app/utils/sentimentHelpers.ts lines 34-44): the appended cubic
Bezier command over the cyclically indexed points p0, p1, p2, p3. -/
def cCmd (points : List Point) (i : Nat) : String :=
  let n := points.length
  let p0 := points.getD (if i = 0 then n - 1 else i - 1) { x := 0, y := 0 }
  let p1 := points.getD i { x := 0, y := 0 }
  let p2 := points.getD ((i + 1) % n) { x := 0, y := 0 }
  let p3 := points.getD ((i + 2) % n) { x := 0, y := 0 }
  let cp1x := p1.x + (p2.x - p0.x) * (2 / 10)
  let cp1y := p1.y + (p2.y - p0.y) * (2 / 10)
  let cp2x := p2.x - (p3.x - p1.x) * (2 / 10)
  let cp2y := p2.y - (p3.y - p1.y) * (2 / 10)
  " C " ++ numStr cp1x ++ " " ++ numStr cp1y ++ ", " ++ numStr cp2x ++ " " ++
    numStr cp2y ++ ", " ++ numStr p2.x ++ " " ++ numStr p2.y

/-- generateSmoothPath (src/src/app/utils/sentimentHelpers.ts lines
31-47, identically src/unnamed/part_004 lines 694-710): the empty string
for fewer than two points, otherwise `M x0 y0` followed by one C command
per loop iteration and a final ` Z`. -/
def generateSmoothPath (points : List Point) : String :=
  if points.length < 2 then ""
  else
    let start := "M " ++ numStr (points.getD 0 { x := 0, y := 0 }).x ++ " " ++
      numStr (points.getD 0 { x := 0, y := 0 }).y
    let body := (List.range points.length).foldl (fun path i => path ++ cCmd points i) start
    body ++ " Z"

/-- Unfolded characterization of animateFrom: starting at `currentIdx`
it appends `segments.get? (currentIdx + j)` for each tick `j` (at least
one tick runs) and finishes with stage finished. -/
theorem animateFrom_run (segments : List ServerSegment) :
    ∀ m currentIdx s, segments.length - currentIdx ≤ m →
      (animateFrom segments currentIdx s).animatedSegments =
        s.animatedSegments ++
          (List.range (max 1 (segments.length - currentIdx))).map
            (fun j => segments.get? (currentIdx + j)) ∧
      (animateFrom segments currentIdx s).stage = Stage.finished := by
  intro m
  induction m with
  | zero =>
    intro currentIdx s h
    have hlen : segments.length ≤ currentIdx + 1 := by omega
    rw [animateFrom, if_pos hlen]
    have h0 : max 1 (segments.length - currentIdx) = 1 := by omega
    simp [h0, List.range_succ]
  | succ m ih =>
    intro currentIdx s h
    rw [animateFrom]
    by_cases hlen : segments.length ≤ currentIdx + 1
    · rw [if_pos hlen]
      have h0 : max 1 (segments.length - currentIdx) = 1 := by omega
      simp [h0, List.range_succ]
    · rw [if_neg hlen]
      obtain ⟨h1, h2⟩ := ih (currentIdx + 1)
        { s with animatedSegments := s.animatedSegments ++ [segments.get? currentIdx] }
        (by omega)
      refine ⟨?_, h2⟩
      rw [h1]
      have hm1 : max 1 (segments.length - (currentIdx + 1)) =
          segments.length - currentIdx - 1 := by omega
      have hm2 : max 1 (segments.length - currentIdx) =
          (segments.length - currentIdx - 1) + 1 := by omega
      rw [hm1, hm2, List.range_succ_eq_map]
      simp only [List.map_cons, List.map_map, Nat.add_zero, List.append_assoc,
        List.singleton_append]
      refine congrArg _ (congrArg _ ?_)
      apply List.map_congr_left
      intro j hj
      simp only [Function.comp_apply]
      congr 1
      omega

/-- Indexing the whole of a list through get? yields the list mapped
through some. -/
theorem range_map_get {α : Type} (l : List α) :
    (List.range l.length).map (fun j => l.get? j) = l.map some := by
  induction l with
  | nil => simp
  | cons a t ih =>
    simp only [List.length_cons, List.range_succ_eq_map, List.map_cons, List.map_map,
      List.get?_cons_zero]
    refine congrArg (some a :: ·) ?_
    calc (List.range t.length).map ((fun j => (a :: t).get? j) ∘ Nat.succ)
        = (List.range t.length).map (fun j => t.get? j) := by
          congr 1
      _ = t.map some := ih

/-- C10: animateSegments, given a segment list s, appends s[0], s[1], ...
to animatedSegments in index order, one per interval tick, and sets the
stage to finished immediately after appending the last element; because
each tick appends s[currentIdx] before the bounds check, calling it with
the empty list still performs one tick that appends the out-of-bounds
element s[0] (undefined, modelled as none) to animatedSegments before
stopping and setting the stage to finished. -/
theorem animateSegments_spec (segments : List ServerSegment) (s : AppState) :
    (animateSegments segments s).stage = Stage.finished ∧
    (animateSegments segments s).animatedSegments =
      s.animatedSegments ++ (if segments.isEmpty then [none] else segments.map some) := by
  obtain ⟨h1, h2⟩ := animateFrom_run segments segments.length 0 s (by omega)
  refine ⟨h2, ?_⟩
  rw [animateSegments, h1]
  cases segments with
  | nil => simp [List.range_succ]
  | cons a t =>
    refine congrArg _ ?_
    have hmax : max 1 ((a :: t).length - 0) = (a :: t).length := by
      simp only [Nat.sub_zero, List.length_cons]
      omega
    rw [hmax]
    have hfun : (List.range (a :: t).length).map (fun j => (a :: t).get? (0 + j)) =
        (List.range (a :: t).length).map (fun j => (a :: t).get? j) := by
      apply List.map_congr_left
      intro j hj
      simp
    rw [hfun, range_map_get]
    simp

/-- C1: the UI stage only ever advances in the fixed order
idle, uploading, processing, finished.  Each stage write of processAudio
(on receiving the analysis result and in its 2-second timer),
animateSegments, and the recorder onstop handlers, fired at the stage
where the code runs it, moves the stage exactly one step forward in this
order; processAudio invoked from a recorder onstop handler re-writes
uploading and so leaves the stage unchanged; the catch branch of
processAudio and handleFileUpload never move the stage; and the only
backward move is resetApp, which returns the stage to idle from any
state. -/
theorem stage_transitions_forward :
    (∀ r s, s.stage = Stage.idle →
       (processAudioReceive r s).stage = Stage.uploading ∧
       stageRank (processAudioReceive r s).stage = stageRank s.stage + 1) ∧
    (∀ r s, s.stage = Stage.uploading → (processAudioReceive r s).stage = s.stage) ∧
    (∀ s, s.stage = Stage.uploading →
       (processAudioTimeout s).stage = Stage.processing ∧
       stageRank (processAudioTimeout s).stage = stageRank s.stage + 1) ∧
    (∀ segments s, s.stage = Stage.processing →
       (animateSegments segments s).stage = Stage.finished ∧
       stageRank (animateSegments segments s).stage = stageRank s.stage + 1) ∧
    (∀ url s, s.stage = Stage.idle →
       (recorderOnStop url s).stage = Stage.uploading ∧
       stageRank (recorderOnStop url s).stage = stageRank s.stage + 1) ∧
    (∀ s, (processAudioCatch s).stage = s.stage) ∧
    (∀ files s, (handleFileUpload files s).1.stage = s.stage) ∧
    (∀ s, (resetApp s).stage = Stage.idle) := by
  refine ⟨?_, ?_, ?_, ?_, ?_, ?_, ?_, ?_⟩
  · intro r s h
    exact ⟨rfl, by rw [h]; rfl⟩
  · intro r s h
    rw [h]; rfl
  · intro s h
    exact ⟨rfl, by rw [h]; rfl⟩
  · intro segments s h
    have h1 := (animateSegments_spec segments s).1
    exact ⟨h1, by rw [h1, h]; rfl⟩
  · intro url s h
    exact ⟨rfl, by rw [h]; rfl⟩
  · intro s; rfl
  · intro files s
    cases files with
    | nil => rfl
    | cons f rest =>
      by_cases hty : typeStartsWith f.type "audio/"
      · simp [handleFileUpload, hty]
      · simp [handleFileUpload, hty]
  · intro s; rfl

/-- Witness for C1 at concrete states: each guarded transition fires at
a concrete state of the required stage. -/
theorem stage_transitions_forward_witness :
    (processAudioReceive { segments := [], genre := "Pop" } initialAppState).stage =
      Stage.uploading ∧
    (processAudioTimeout { initialAppState with stage := Stage.uploading }).stage =
      Stage.processing ∧
    (animateSegments [] { initialAppState with stage := Stage.processing }).stage =
      Stage.finished ∧
    (recorderOnStop "blob:demo" initialAppState).stage = Stage.uploading ∧
    (resetApp { initialAppState with stage := Stage.finished }).stage = Stage.idle := by
  have h := stage_transitions_forward
  exact ⟨(h.1 { segments := [], genre := "Pop" } initialAppState rfl).1,
    (h.2.2.1 { initialAppState with stage := Stage.uploading } rfl).1,
    (h.2.2.2.1 [] { initialAppState with stage := Stage.processing } rfl).1,
    (h.2.2.2.2.1 "blob:demo" initialAppState rfl).1,
    h.2.2.2.2.2.2.2 { initialAppState with stage := Stage.finished }⟩

/-- C2: for every file-upload event whose file's MIME type does not
start with `audio/`, handleFileUpload leaves the stage (and the whole
state except the error message) unchanged, does not start processing,
and sets the error message to `Please upload a valid audio file.`; for
every event carrying a file whose type does start with `audio/`, the
error is cleared and processing begins. -/
theorem handleFileUpload_spec (file : UploadFile) (rest : List UploadFile) (s : AppState) :
    handleFileUpload (file :: rest) s =
      (if typeStartsWith file.type "audio/" then
        ({ s with error := none, songName := file.name, artistName := "Unknown" }, true)
      else
        ({ s with error := some "Please upload a valid audio file." }, false)) ∧
    (handleFileUpload (file :: rest) s).1.stage = s.stage ∧
    ((handleFileUpload (file :: rest) s).2 = true ↔ typeStartsWith file.type "audio/" = true) ∧
    (typeStartsWith file.type "audio/" = false →
       (handleFileUpload (file :: rest) s).1.error = some "Please upload a valid audio file.") ∧
    (typeStartsWith file.type "audio/" = true →
       (handleFileUpload (file :: rest) s).1.error = none) := by
  by_cases hty : typeStartsWith file.type "audio/"
  · refine ⟨by simp [handleFileUpload, hty], by simp [handleFileUpload, hty], ?_, ?_, ?_⟩
    · simp [handleFileUpload, hty]
    · intro hfalse; rw [hty] at hfalse; cases hfalse
    · intro _; simp [handleFileUpload, hty]
  · have hty' : typeStartsWith file.type "audio/" = false := by
      cases hb : typeStartsWith file.type "audio/" with
      | false => rfl
      | true => exact absurd hb hty
    refine ⟨by simp [handleFileUpload, hty'], by simp [handleFileUpload, hty'], ?_, ?_, ?_⟩
    · simp [handleFileUpload, hty']
    · intro _; simp [handleFileUpload, hty']
    · intro htrue; rw [hty'] at htrue; cases htrue

/-- Witness for C2 at two concrete upload events: a text file is
rejected with the message and without starting processing, an audio file
clears the error and starts processing. -/
theorem handleFileUpload_witness :
    (handleFileUpload [{ name := "notes.txt", type := "text/plain" }]
        initialAppState).1.error = some "Please upload a valid audio file." ∧
    (handleFileUpload [{ name := "notes.txt", type := "text/plain" }]
        initialAppState).2 = false ∧
    (handleFileUpload [{ name := "song.mp3", type := "audio/mpeg" }]
        initialAppState).1.error = none ∧
    (handleFileUpload [{ name := "song.mp3", type := "audio/mpeg" }]
        initialAppState).2 = true := by
  refine ⟨?_, ?_, ?_, ?_⟩
  · exact (handleFileUpload_spec { name := "notes.txt", type := "text/plain" } []
      initialAppState).2.2.2.1 (by decide)
  · have h := (handleFileUpload_spec { name := "notes.txt", type := "text/plain" } []
      initialAppState).2.2.1
    cases hb : (handleFileUpload [{ name := "notes.txt", type := "text/plain" }]
        initialAppState).2 with
    | false => rfl
    | true => exact absurd (h.mp hb) (by decide)
  · exact (handleFileUpload_spec { name := "song.mp3", type := "audio/mpeg" } []
      initialAppState).2.2.2.2 (by decide)
  · exact (handleFileUpload_spec { name := "song.mp3", type := "audio/mpeg" } []
      initialAppState).2.2.1.mpr (by decide)

/-- C3 counterexample: resetApp does not clear the error message.  From
a state carrying the upload-validation error, resetApp leaves the error
set, while the claim says the error message becomes null. -/
theorem resetApp_error_not_cleared :
    (resetApp { initialAppState with
        stage := Stage.finished
        error := some "Please upload a valid audio file." }).error ≠ none := by
  intro h
  exact Option.noConfusion h

/-- C3 amended: invoking resetApp from any state sets the stage to idle,
both audio URLs to null, the predicted genre to null and both segment
lists to empty, but leaves the error message unchanged (the source calls
no setError in resetApp). -/
theorem resetApp_spec (s : AppState) :
    (resetApp s).stage = Stage.idle ∧
    (resetApp s).recordedAudioUrl = none ∧
    (resetApp s).uploadedAudioUrl = none ∧
    (resetApp s).predictedGenre = none ∧
    (resetApp s).serverSegments = [] ∧
    (resetApp s).animatedSegments = [] ∧
    (resetApp s).error = s.error :=
  ⟨rfl, rfl, rfl, rfl, rfl, rfl, rfl⟩

/-- C4: analyzeAudio returns the parsed body exactly when the HTTP
status is 200; otherwise it throws, and processAudio catches the
failure, leaves segments and genre (and the stage) unchanged, and sets
the generic try-again error message. -/
theorem analyzeAudio_processAudio_spec (resp : HttpResponse) (s : AppState) :
    (analyzeAudio resp = Except.ok resp.data ↔ resp.status = 200) ∧
    (resp.status = 200 → processAudio resp s = processAudioReceive resp.data s) ∧
    (resp.status ≠ 200 →
       analyzeAudio resp =
         Except.error ("API request failed with status code " ++ toString resp.status) ∧
       (processAudio resp s).serverSegments = s.serverSegments ∧
       (processAudio resp s).predictedGenre = s.predictedGenre ∧
       (processAudio resp s).stage = s.stage ∧
       (processAudio resp s).error =
         some "There was an error processing your audio. Please try again.") := by
  by_cases hst : resp.status = 200
  · have hok : analyzeAudio resp = Except.ok resp.data := by
      rw [analyzeAudio, if_neg (by simp [hst])]
    refine ⟨⟨fun _ => hst, fun _ => hok⟩, fun _ => ?_, fun hne => absurd hst hne⟩
    rw [processAudio, hok]
  · have herr : analyzeAudio resp =
        Except.error ("API request failed with status code " ++ toString resp.status) := by
      rw [analyzeAudio, if_pos hst]
    have hpa : processAudio resp s = processAudioCatch s := by
      rw [processAudio, herr]
    refine ⟨⟨fun hok => ?_, fun h200 => absurd h200 hst⟩, fun h200 => absurd h200 hst,
      fun _ => ⟨herr, ?_, ?_, ?_, ?_⟩⟩
    · rw [herr] at hok; cases hok
    · rw [hpa]; rfl
    · rw [hpa]; rfl
    · rw [hpa]; rfl
    · rw [hpa]; rfl

/-- Witness for C4 at a 200 response and a 500 response. -/
theorem analyzeAudio_processAudio_witness :
    analyzeAudio { status := 200, data := { segments := [], genre := "Pop" } } =
      Except.ok { segments := [], genre := "Pop" } ∧
    (processAudio { status := 500, data := { segments := [], genre := "Pop" } }
        initialAppState).error =
      some "There was an error processing your audio. Please try again." ∧
    (processAudio { status := 500, data := { segments := [], genre := "Pop" } }
        initialAppState).serverSegments = [] := by
  refine ⟨?_, ?_, ?_⟩
  · exact (analyzeAudio_processAudio_spec
      { status := 200, data := { segments := [], genre := "Pop" } } initialAppState).1.mpr rfl
  · exact ((analyzeAudio_processAudio_spec
      { status := 500, data := { segments := [], genre := "Pop" } } initialAppState).2.2
      (by decide)).2.2.2.2
  · exact ((analyzeAudio_processAudio_spec
      { status := 500, data := { segments := [], genre := "Pop" } } initialAppState).2.2
      (by decide)).2.1

/-- C5: for every sentiment state with speed > 0, one updateSentiment
step moves the value toward the target by exactly the speed, clamps the
value to the target when the step would overshoot, leaves the target and
speed unchanged while the target is not yet reached, and exactly when
the value reaches the target it draws a fresh target (`rt`) and a fresh
speed (`rs * 0.005 + 0.002`); the five cases below are exhaustive, so
there is no other edge-case behaviour. -/
theorem updateSentiment_cases (rt rs : ℚ) (st : SentimentState) (hsp : 0 < st.speed) :
    (st.value < st.target → st.value + st.speed < st.target →
       updateSentiment rt rs st =
         { value := st.value + st.speed, target := st.target, speed := st.speed }) ∧
    (st.value < st.target → st.target ≤ st.value + st.speed →
       updateSentiment rt rs st =
         { value := st.target, target := rt, speed := rs * (5 / 1000) + 2 / 1000 }) ∧
    (st.target < st.value → st.target < st.value - st.speed →
       updateSentiment rt rs st =
         { value := st.value - st.speed, target := st.target, speed := st.speed }) ∧
    (st.target < st.value → st.value - st.speed ≤ st.target →
       updateSentiment rt rs st =
         { value := st.target, target := rt, speed := rs * (5 / 1000) + 2 / 1000 }) ∧
    (st.value = st.target →
       updateSentiment rt rs st =
         { value := st.value, target := rt, speed := rs * (5 / 1000) + 2 / 1000 }) := by
  refine ⟨?_, ?_, ?_, ?_, ?_⟩
  · intro hlt hns
    rw [updateSentiment]
    simp only [if_pos hlt, if_neg (not_le.mpr hns)]
    rw [if_neg (by intro h; exact absurd h (ne_of_lt hns))]
  · intro hlt hov
    rw [updateSentiment]
    simp only [if_pos hlt, if_pos hov]
    simp
  · intro hgt hns
    rw [updateSentiment]
    simp only [if_neg (not_lt.mpr (le_of_lt hgt)), if_pos hgt,
      if_neg (not_le.mpr hns)]
    rw [if_neg (by intro h; exact absurd h (ne_of_gt hns))]
  · intro hgt hov
    rw [updateSentiment]
    simp only [if_neg (not_lt.mpr (le_of_lt hgt)), if_pos hgt, if_pos hov]
    simp
  · intro heq
    rw [updateSentiment]
    simp only [if_neg (not_lt.mpr (le_of_eq heq.symm)),
      if_neg (not_lt.mpr (le_of_eq heq))]
    rw [if_pos heq]

/-- Witness for C5: a concrete state far from its target steps by
exactly its speed; a concrete state one step away clamps to the target
and draws the fresh pair. -/
theorem updateSentiment_cases_witness :
    updateSentiment (1 / 3) (1 / 4)
        { value := 0, target := 1 / 2, speed := 1 / 10 } =
      { value := 1 / 10, target := 1 / 2, speed := 1 / 10 } ∧
    updateSentiment (1 / 3) (1 / 4)
        { value := 45 / 100, target := 1 / 2, speed := 1 / 10 } =
      { value := 1 / 2, target := 1 / 3,
        speed := (1 / 4) * (5 / 1000) + 2 / 1000 } := by
  constructor
  · have h := (updateSentiment_cases (1 / 3) (1 / 4)
      { value := 0, target := 1 / 2, speed := 1 / 10 } (by norm_num)).1
      (by norm_num) (by norm_num)
    rw [h]
    simp only [SentimentState.mk.injEq]
    norm_num
  · have h := (updateSentiment_cases (1 / 3) (1 / 4)
      { value := 45 / 100, target := 1 / 2, speed := 1 / 10 } (by norm_num)).2.1
      (by norm_num) (by norm_num)
    rw [h]

/-- The value component of one updateSentiment step, in closed form:
move toward the target by the speed, clamped at the target. -/
theorem updateSentiment_value (rt rs : ℚ) (st : SentimentState) :
    (updateSentiment rt rs st).value =
      if st.value < st.target then
        if st.target ≤ st.value + st.speed then st.target else st.value + st.speed
      else if st.target < st.value then
        if st.value - st.speed ≤ st.target then st.target else st.value - st.speed
      else st.value := by
  rw [updateSentiment]
  by_cases h1 : st.value < st.target
  · by_cases h2 : st.target ≤ st.value + st.speed <;>
      simp [h1, h2, apply_ite SentimentState.value]
  · by_cases h3 : st.target < st.value
    · by_cases h4 : st.value - st.speed ≤ st.target <;>
        simp [h1, h3, h4, apply_ite SentimentState.value]
    · simp [h1, h3, apply_ite SentimentState.value]

/-- One updateSentiment step either draws the fresh target/speed pair or
keeps the old one. -/
theorem updateSentiment_target_speed (rt rs : ℚ) (st : SentimentState) :
    ((updateSentiment rt rs st).target = rt ∧
     (updateSentiment rt rs st).speed = rs * (5 / 1000) + 2 / 1000) ∨
    ((updateSentiment rt rs st).target = st.target ∧
     (updateSentiment rt rs st).speed = st.speed) := by
  rw [updateSentiment]
  split_ifs <;> first | exact Or.inl ⟨rfl, rfl⟩ | exact Or.inr ⟨rfl, rfl⟩

/-- With a nonnegative speed, one updateSentiment step keeps the value
between the old value and the target. -/
theorem updateSentiment_value_between (rt rs : ℚ) (st : SentimentState)
    (hsp : 0 ≤ st.speed) :
    min st.value st.target ≤ (updateSentiment rt rs st).value ∧
    (updateSentiment rt rs st).value ≤ max st.value st.target := by
  rw [updateSentiment_value]
  by_cases h1 : st.value < st.target
  · rw [if_pos h1]
    by_cases h2 : st.target ≤ st.value + st.speed
    · rw [if_pos h2]
      exact ⟨min_le_right _ _, le_max_right _ _⟩
    · rw [if_neg h2]
      push_neg at h2
      exact ⟨le_trans (min_le_left _ _) (by linarith),
        le_trans (le_of_lt h2) (le_max_right _ _)⟩
  · rw [if_neg h1]
    by_cases h3 : st.target < st.value
    · rw [if_pos h3]
      by_cases h4 : st.value - st.speed ≤ st.target
      · rw [if_pos h4]
        exact ⟨min_le_right _ _, le_max_right _ _⟩
      · rw [if_neg h4]
        push_neg at h4
        exact ⟨le_trans (min_le_right _ _) (le_of_lt h4),
          le_trans (by linarith) (le_max_left _ _)⟩
    · rw [if_neg h3]
      exact ⟨min_le_left _ _, le_max_left _ _⟩

/-- One updateSentiment step with Math.random() draws preserves the
range invariant of a dimension. -/
theorem updateSentiment_dimInRange (rt rs : ℚ) (st : SentimentState)
    (hrt : randOk rt) (hrs : randOk rs) (h : dimInRange st) :
    dimInRange (updateSentiment rt rs st) := by
  obtain ⟨hv0, hv1, ht0, ht1, hs0⟩ := h
  obtain ⟨hb1, hb2⟩ := updateSentiment_value_between rt rs st hs0
  have hv0' : 0 ≤ (updateSentiment rt rs st).value := le_trans (le_min hv0 ht0) hb1
  have hv1' : (updateSentiment rt rs st).value ≤ 1 := le_trans hb2 (max_le hv1 ht1)
  rcases updateSentiment_target_speed rt rs st with ⟨hta, hspe⟩ | ⟨hta, hspe⟩
  · refine ⟨hv0', hv1', ?_, ?_, ?_⟩
    · rw [hta]; exact hrt.1
    · rw [hta]; exact le_of_lt hrt.2
    · rw [hspe]
      have := mul_nonneg hrs.1 (by norm_num : (0 : ℚ) ≤ 5 / 1000)
      linarith
  · refine ⟨hv0', hv1', ?_, ?_, ?_⟩
    · rw [hta]; exact ht0
    · rw [hta]; exact ht1
    · rw [hspe]; exact hs0

/-- The per-segment animation update preserves the range invariant. -/
theorem animateSeg_segInRange (dr : FrameDraws) (seg : SegmentSentiment)
    (hdr : frameDrawsOk dr) (h : segInRange seg) :
    segInRange (animateSeg dr seg) := by
  rw [animateSeg]
  by_cases hl : seg.locked
  · rw [if_pos hl]; exact h
  · rw [if_neg hl]
    obtain ⟨h1, h2, h3⟩ := h
    obtain ⟨⟨d11, d12⟩, ⟨d21, d22⟩, ⟨d31, d32⟩⟩ := hdr
    exact ⟨updateSentiment_dimInRange _ _ _ d11 d12 h1,
      updateSentiment_dimInRange _ _ _ d21 d22 h2,
      updateSentiment_dimInRange _ _ _ d31 d32 h3⟩

/-- One frame of the animate loop preserves the range invariant of every
segment. -/
theorem animateStepAux_segInRange (dr : Nat → FrameDraws)
    (hdr : ∀ i, frameDrawsOk (dr i)) :
    ∀ (segs : List SegmentSentiment) (i : Nat), (∀ seg ∈ segs, segInRange seg) →
      ∀ seg ∈ animateStepAux dr i segs, segInRange seg := by
  intro segs
  induction segs with
  | nil =>
    intro i _ seg hseg
    rw [animateStepAux] at hseg
    cases hseg
  | cons a t ih =>
    intro i hall seg hseg
    rw [animateStepAux] at hseg
    rcases List.mem_cons.mp hseg with heq | hmem
    · rw [heq]
      exact animateSeg_segInRange (dr i) a (hdr i) (hall a (List.mem_cons_self a t))
    · exact ih (i + 1) (fun s hs => hall s (List.mem_cons_of_mem a hs)) seg hmem

/-- Every frame of the animate loop preserves the range invariant of
every segment, for any number of frames. -/
theorem animateRun_segInRange :
    ∀ (n : Nat) (oracle : Nat → Nat → FrameDraws),
      (∀ k i, frameDrawsOk (oracle k i)) →
      ∀ (segs : List SegmentSentiment), (∀ seg ∈ segs, segInRange seg) →
      ∀ seg ∈ animateRun oracle n segs, segInRange seg := by
  intro n
  induction n with
  | zero =>
    intro oracle _ segs hsegs seg hseg
    rw [animateRun] at hseg
    exact hsegs seg hseg
  | succ n ih =>
    intro oracle hor segs hsegs seg hseg
    rw [animateRun] at hseg
    refine ih (fun k => oracle (k + 1)) (fun k i => hor (k + 1) i)
      (animateStep (oracle 0) segs) ?_ seg hseg
    intro s hs
    rw [animateStep] at hs
    exact animateStepAux_segInRange (oracle 0) (fun i => hor 0 i) segs 0 hsegs s hs

/-- C6: in the client-side random-walk simulation every segment's
valence, arousal and dominance stay in the unit interval forever: the
initial values and targets are Math.random() draws from [0,1) (and the
initial speeds are nonnegative), every animation step produces a value
lying between the old value and the target, and the range invariant is
preserved by every step of the animation loop, for any number of
frames. -/
theorem sentiment_values_in_range :
    (∀ (i : Nat) (rv1 rv2 rv3 ra1 ra2 ra3 rd1 rd2 rd3 : ℚ),
       randOk rv1 → randOk rv2 → randOk rv3 → randOk ra1 → randOk ra2 → randOk ra3 →
       randOk rd1 → randOk rd2 → randOk rd3 →
       segInRange (initSegment i rv1 rv2 rv3 ra1 ra2 ra3 rd1 rd2 rd3)) ∧
    (∀ (rt rs : ℚ) (st : SentimentState), 0 ≤ st.speed →
       min st.value st.target ≤ (updateSentiment rt rs st).value ∧
       (updateSentiment rt rs st).value ≤ max st.value st.target) ∧
    (∀ (n : Nat) (oracle : Nat → Nat → FrameDraws),
       (∀ k i, frameDrawsOk (oracle k i)) →
       ∀ (segs : List SegmentSentiment), (∀ seg ∈ segs, segInRange seg) →
       ∀ seg ∈ animateRun oracle n segs, segInRange seg) := by
  refine ⟨?_, updateSentiment_value_between, animateRun_segInRange⟩
  intro i rv1 rv2 rv3 ra1 ra2 ra3 rd1 rd2 rd3 h1 h2 h3 h4 h5 h6 h7 h8 h9
  have hs : ∀ r : ℚ, randOk r → 0 ≤ r * (5 / 1000) + 2 / 1000 := by
    intro r hr
    have := mul_nonneg hr.1 (by norm_num : (0 : ℚ) ≤ 5 / 1000)
    linarith
  exact ⟨⟨h1.1, le_of_lt h1.2, h2.1, le_of_lt h2.2, hs rv3 h3⟩,
    ⟨h4.1, le_of_lt h4.2, h5.1, le_of_lt h5.2, hs ra3 h6⟩,
    ⟨h7.1, le_of_lt h7.2, h8.1, le_of_lt h8.2, hs rd3 h9⟩⟩

/-- Witness for C6: one frame of the loop on one concretely initialized
segment, with all Math.random() draws equal to 0, stays in range. -/
theorem sentiment_values_in_range_witness :
    segInRange (animateSeg { valence := (0, 0), arousal := (0, 0), dominance := (0, 0) }
      (initSegment 0 0 0 0 0 0 0 0 0 0)) := by
  have h := sentiment_values_in_range
  have hr : randOk 0 := by constructor <;> norm_num
  refine h.2.2 1 (fun _ _ => { valence := (0, 0), arousal := (0, 0), dominance := (0, 0) })
    (fun k i => ⟨⟨hr, hr⟩, ⟨hr, hr⟩, ⟨hr, hr⟩⟩)
    [initSegment 0 0 0 0 0 0 0 0 0 0] ?_ _ ?_
  · intro seg hseg
    rw [List.mem_singleton.mp hseg]
    exact h.1 0 0 0 0 0 0 0 0 0 0 hr hr hr hr hr hr hr hr hr
  · show _ ∈ animateRun _ 1 [initSegment 0 0 0 0 0 0 0 0 0 0]
    rw [animateRun, animateRun, animateStep, animateStepAux, animateStepAux]
    exact List.mem_cons_self _ _

/-- One frame of the animate loop returns each locked segment at its
position unchanged. -/
theorem animateStepAux_get_locked (dr : Nat → FrameDraws) :
    ∀ (segs : List SegmentSentiment) (j i : Nat) (seg : SegmentSentiment),
      segs.get? i = some seg → seg.locked = true →
      (animateStepAux dr j segs).get? i = some seg := by
  intro segs
  induction segs with
  | nil =>
    intro j i seg h _
    cases h
  | cons a t ih =>
    intro j i seg h hl
    cases i with
    | zero =>
      rw [List.get?_cons_zero] at h
      have ha : a = seg := by injection h
      subst ha
      rw [animateStepAux, List.get?_cons_zero, animateSeg, if_pos hl]
    | succ n =>
      rw [List.get?_cons_succ] at h
      rw [animateStepAux, List.get?_cons_succ]
      exact ih (j + 1) n seg h hl

/-- Any number of frames of the animate loop returns each locked segment
at its position unchanged. -/
theorem animateRun_get_locked :
    ∀ (n : Nat) (oracle : Nat → Nat → FrameDraws) (segs : List SegmentSentiment)
      (i : Nat) (seg : SegmentSentiment),
      segs.get? i = some seg → seg.locked = true →
      (animateRun oracle n segs).get? i = some seg := by
  intro n
  induction n with
  | zero =>
    intro oracle segs i seg h _
    rw [animateRun]
    exact h
  | succ n ih =>
    intro oracle segs i seg h hl
    rw [animateRun]
    refine ih (fun k => oracle (k + 1)) (animateStep (oracle 0) segs) i seg ?_ hl
    rw [animateStep]
    exact animateStepAux_get_locked (oracle 0) segs 0 i seg h hl

/-- Pointwise description of one startProcessing tick with a running
start index. -/
theorem startProcessingTickAux_get (currentIdx : Nat) :
    ∀ (segs : List SegmentSentiment) (j i : Nat),
      (startProcessingTickAux currentIdx j segs).get? i =
        (segs.get? i).map (fun seg => if j + i = currentIdx then lockSegment seg else seg) := by
  intro segs
  induction segs with
  | nil =>
    intro j i
    rw [startProcessingTickAux]
    simp
  | cons a t ih =>
    intro j i
    cases i with
    | zero =>
      rw [startProcessingTickAux]
      simp
    | succ n =>
      rw [startProcessingTickAux]
      simp only [List.get?_cons_succ]
      rw [ih (j + 1) n]
      have harith : j + 1 + n = j + (n + 1) := by omega
      rw [harith]

/-- C9: startProcessing locks one segment per timer tick (setting the
locked segment's targets to its current values and its speeds to 0, and
leaving every other index untouched), and once a segment is locked no
animation step ever changes it again: the per-segment animation update
returns locked segments unchanged, so any number of animation frames
leaves a locked segment's timeSec, valence, arousal and dominance fields
exactly as they were. -/
theorem locked_segments_frozen :
    (∀ seg : SegmentSentiment,
       (lockSegment seg).locked = true ∧
       (lockSegment seg).timeSec = seg.timeSec ∧
       (lockSegment seg).valence.value = seg.valence.value ∧
       (lockSegment seg).valence.target = seg.valence.value ∧
       (lockSegment seg).valence.speed = 0 ∧
       (lockSegment seg).arousal.value = seg.arousal.value ∧
       (lockSegment seg).arousal.target = seg.arousal.value ∧
       (lockSegment seg).arousal.speed = 0 ∧
       (lockSegment seg).dominance.value = seg.dominance.value ∧
       (lockSegment seg).dominance.target = seg.dominance.value ∧
       (lockSegment seg).dominance.speed = 0) ∧
    (∀ (currentIdx : Nat) (segs : List SegmentSentiment) (i : Nat),
       (startProcessingTick currentIdx segs).get? i =
         if i = currentIdx then (segs.get? i).map lockSegment else segs.get? i) ∧
    (∀ (dr : FrameDraws) (seg : SegmentSentiment), seg.locked = true →
       animateSeg dr seg = seg) ∧
    (∀ (n : Nat) (oracle : Nat → Nat → FrameDraws) (segs : List SegmentSentiment)
       (i : Nat) (seg : SegmentSentiment),
       segs.get? i = some seg → seg.locked = true →
       (animateRun oracle n segs).get? i = some seg) := by
  refine ⟨?_, ?_, ?_, animateRun_get_locked⟩
  · intro seg
    exact ⟨rfl, rfl, rfl, rfl, rfl, rfl, rfl, rfl, rfl, rfl, rfl⟩
  · intro currentIdx segs i
    rw [startProcessingTick, startProcessingTickAux_get]
    by_cases h : i = currentIdx
    · rw [if_pos h]
      cases segs.get? i <;> simp [h]
    · rw [if_neg h]
      cases segs.get? i <;> simp [h]
  · intro dr seg hl
    rw [animateSeg, if_pos hl]

/-- Witness for C9: a concretely locked segment survives two animation
frames unchanged. -/
theorem locked_segments_frozen_witness :
    (animateRun (fun _ _ => { valence := (0, 0), arousal := (0, 0), dominance := (0, 0) }) 2
        [lockSegment (initSegment 0 0 0 0 0 0 0 0 0 0)]).get? 0 =
      some (lockSegment (initSegment 0 0 0 0 0 0 0 0 0 0)) :=
  locked_segments_frozen.2.2.2 2
    (fun _ _ => { valence := (0, 0), arousal := (0, 0), dominance := (0, 0) })
    [lockSegment (initSegment 0 0 0 0 0 0 0 0 0 0)] 0
    (lockSegment (initSegment 0 0 0 0 0 0 0 0 0 0)) rfl rfl

/-- Every track of a stream mapped through stopTrack is stopped. -/
theorem stopped_of_mem_stopTracks (o : Option (List Track)) :
    ∀ t ∈ (o.map (List.map stopTrack)).getD [], t.stopped = true := by
  intro t ht
  cases o with
  | none => cases ht
  | some l =>
    simp only [Option.map_some', Option.getD_some] at ht
    obtain ⟨x, _, hx⟩ := List.mem_map.mp ht
    rw [← hx]
    rfl

/-- C7 counterexample: the page component installs no teardown cleanup
for the inline recorder's stream, so after page teardown with an active
inline recording the captured track is still live (stopped = false),
contrary to the claim that every exit path, page teardown included,
stops all of the stream's tracks for the inline recorder too. -/
theorem inline_stream_live_after_teardown :
    ¬ (∀ t ∈ ((pageUnmountCleanup
          { mediaStream := some [{ id := 0, stopped := false, enabled := true }]
            recording := true
            hasRecorder := true }).mediaStream.getD []),
        t.stopped = true) := by
  intro h
  exact Bool.noConfusion
    (h { id := 0, stopped := false, enabled := true } (List.mem_singleton_self _))

/-- C7 amended: the RecordModal recorder stops all of its stream's
tracks both on manual stop (stopRecording) and on modal unmount (the
effect cleanup), and the inline recorder of the page component stops all
of its stream's tracks on manual stop (stopRecordingInline, which runs
its body only while a recorder is attached and recording is true); but
the page component installs no teardown cleanup touching the inline
stream, so page teardown leaves the inline recorder state unchanged. -/
theorem recorder_tracks_stopped (m : ModalState) (s : InlineState)
    (hrec : s.hasRecorder = true) (hrecording : s.recording = true) :
    (∀ t ∈ (modalStopRecording m).mediaStream.getD [], t.stopped = true) ∧
    (∀ t ∈ (modalUnmountCleanup m).mediaStream.getD [], t.stopped = true) ∧
    (∀ t ∈ (stopRecordingInline s).mediaStream.getD [], t.stopped = true) ∧
    pageUnmountCleanup s = s := by
  refine ⟨stopped_of_mem_stopTracks m.mediaStream,
    stopped_of_mem_stopTracks m.mediaStream, ?_, rfl⟩
  rw [stopRecordingInline, if_pos ⟨hrec, hrecording⟩]
  exact stopped_of_mem_stopTracks s.mediaStream

/-- Witness for C7 at a concrete recording state: manual stop of the
modal recorder stops the concrete live track, and page teardown leaves
the inline state untouched. -/
theorem recorder_tracks_stopped_witness :
    (stopTrack { id := 1, stopped := false, enabled := true }).stopped = true ∧
    pageUnmountCleanup
        { mediaStream := some [{ id := 1, stopped := false, enabled := true }]
          recording := true
          hasRecorder := true } =
      { mediaStream := some [{ id := 1, stopped := false, enabled := true }]
        recording := true
        hasRecorder := true } := by
  have h := recorder_tracks_stopped
    { mediaStream := some [{ id := 1, stopped := false, enabled := true }]
      isRecording := true
      hasRecorder := true }
    { mediaStream := some [{ id := 1, stopped := false, enabled := true }]
      recording := true
      hasRecorder := true } rfl rfl
  exact ⟨h.1 (stopTrack { id := 1, stopped := false, enabled := true })
      (List.mem_singleton_self _),
    h.2.2.2⟩

/-- The i-th cubic Bezier command with the claim's cyclic indexing:
control points cp1 = p1 + (p2 - p0) * 0.2 and cp2 = p2 - (p3 - p1) * 0.2
over p0 = points[(i+n-1) % n], p1 = points[i], p2 = points[(i+1) % n],
p3 = points[(i+2) % n]. -/
def specCCmd (points : List Point) (i : Nat) : String :=
  let n := points.length
  let p0 := points.getD ((i + n - 1) % n) { x := 0, y := 0 }
  let p1 := points.getD i { x := 0, y := 0 }
  let p2 := points.getD ((i + 1) % n) { x := 0, y := 0 }
  let p3 := points.getD ((i + 2) % n) { x := 0, y := 0 }
  " C " ++ numStr (p1.x + (p2.x - p0.x) * (2 / 10)) ++ " " ++
    numStr (p1.y + (p2.y - p0.y) * (2 / 10)) ++ ", " ++
    numStr (p2.x - (p3.x - p1.x) * (2 / 10)) ++ " " ++
    numStr (p2.y - (p3.y - p1.y) * (2 / 10)) ++ ", " ++
    numStr p2.x ++ " " ++ numStr p2.y

/-- The source's previous-point index `i === 0 ? n - 1 : i - 1` agrees
with the cyclic index (i + n - 1) % n for i < n. -/
theorem cyclic_index_eq (n i : Nat) (hn : 0 < n) (hi : i < n) :
    (i + n - 1) % n = if i = 0 then n - 1 else i - 1 := by
  by_cases h : i = 0
  · subst h
    rw [if_pos rfl]
    have h1 : 0 + n - 1 = n - 1 := by omega
    rw [h1]
    exact Nat.mod_eq_of_lt (by omega)
  · rw [if_neg h]
    have h1 : i + n - 1 = (i - 1) + n := by omega
    rw [h1, Nat.add_mod_right]
    exact Nat.mod_eq_of_lt (by omega)

/-- For indices inside the list, the source's loop body emits exactly
the claim's C command. -/
theorem cCmd_eq_specCCmd (points : List Point) (i : Nat) (hi : i < points.length) :
    cCmd points i = specCCmd points i := by
  have hn : 0 < points.length := by omega
  simp only [cCmd, specCCmd]
  rw [cyclic_index_eq points.length i hn hi]

/-- A left fold that appends a rendered command per element is the
starting string followed by the join of all rendered commands. -/
theorem foldl_append_eq_join {α : Type} (f : α → String) :
    ∀ (l : List α) (start : String),
      l.foldl (fun acc i => acc ++ f i) start = start ++ String.join (l.map f) := by
  intro l
  induction l with
  | nil =>
    intro start
    rw [List.foldl_nil, List.map_nil]
    exact (String.append_empty start).symm
  | cons a t ih =>
    intro start
    rw [List.foldl_cons, ih, List.map_cons]
    have hjoin : String.join (f a :: t.map f) = f a ++ String.join (t.map f) := by
      apply String.ext
      simp [String.data_join]
    rw [hjoin, String.append_assoc]

/-- All commands agree on the list of loop indices. -/
theorem map_cCmd_eq_map_specCCmd (points : List Point) :
    (List.range points.length).map (cCmd points) =
      (List.range points.length).map (specCCmd points) := by
  apply List.map_congr_left
  intro i hi
  exact cCmd_eq_specCCmd points i (List.mem_range.mp hi)

/-- C8: generateSmoothPath returns the empty string for every input list
of fewer than 2 points; for every list of n >= 2 points it returns a
closed SVG path that starts with `M x0 y0` at the first point, contains
exactly n cubic Bezier C commands whose control points are the fixed
Catmull-Rom style combinations cp1 = p1 + (p2 - p0) * 0.2 and
cp2 = p2 - (p3 - p1) * 0.2 over the cyclically indexed points, and ends
with ` Z`. -/
theorem generateSmoothPath_spec (points : List Point) :
    (points.length < 2 → generateSmoothPath points = "") ∧
    (2 ≤ points.length →
       generateSmoothPath points =
         "M " ++ numStr (points.getD 0 { x := 0, y := 0 }).x ++ " " ++
           numStr (points.getD 0 { x := 0, y := 0 }).y ++
           String.join ((List.range points.length).map (specCCmd points)) ++ " Z" ∧
       ((List.range points.length).map (specCCmd points)).length = points.length) := by
  constructor
  · intro hlt
    rw [generateSmoothPath, if_pos hlt]
  · intro hge
    constructor
    · rw [generateSmoothPath, if_neg (by omega)]
      show (List.foldl (fun path i => path ++ cCmd points i)
          ("M " ++ numStr (points.getD 0 { x := 0, y := 0 }).x ++ " " ++
            numStr (points.getD 0 { x := 0, y := 0 }).y) (List.range points.length)) ++ " Z" = _
      rw [foldl_append_eq_join (cCmd points) (List.range points.length),
        map_cCmd_eq_map_specCCmd]
    · rw [List.length_map, List.length_range]

/-- Witness for C8: the empty list yields the empty string, and a
concrete triangle yields the closed path with three C commands. -/
theorem generateSmoothPath_witness :
    generateSmoothPath [] = "" ∧
    generateSmoothPath
        [{ x := 0, y := 0 }, { x := 10, y := 0 }, { x := 0, y := 10 }] =
      "M " ++ numStr 0 ++ " " ++ numStr 0 ++
        String.join ((List.range 3).map
          (specCCmd [{ x := 0, y := 0 }, { x := 10, y := 0 }, { x := 0, y := 10 }])) ++
        " Z" ∧
    ((List.range 3).map
        (specCCmd [{ x := 0, y := 0 }, { x := 10, y := 0 }, { x := 0, y := 10 }])).length =
      3 := by
  refine ⟨(generateSmoothPath_spec []).1 (by norm_num), ?_⟩
  have h := (generateSmoothPath_spec
    [{ x := 0, y := 0 }, { x := 10, y := 0 }, { x := 0, y := 10 }]).2 (by norm_num)
  exact ⟨h.1, h.2⟩
